import Mathlib

/-!
Verification of the ASCII Painter rendering pipeline (src/main.py) against its
natural-language specification.

The embedding below translates the numeric core of `src/main.py`:
  * `optimize_image_for_ascii` (adaptive downsampler, main.py:584-616),
  * `apply_adjustments` (tone adjustment, main.py:952-994),
  * `update_histogram` (64-bin luminance histogram, main.py:482-485),
  * `image_to_ascii` (aspect-corrected resample + grayscale + quantizer,
    main.py:651-680).

Python float arithmetic is modelled by exact arithmetic (ℚ, and ℝ where the
gamma step uses a real power); `int(x)` on non-negative values is `Int.floor`;
`np.uint8` conversion of values already clipped to [0,255] is `Int.floor`
(numpy truncates toward zero).  Pixels are 8-bit RGB triples of naturals.
-/

/-- An RGB bitmap: width, height, and a (total) pixel function.  Models the
decoded PIL image consumed by the pipeline (width × height × 3, 8-bit
channels); only coordinates `x < w`, `y < h` are meaningful. -/
structure Bitmap where
  w : ℕ
  h : ℕ
  px : ℕ → ℕ → ℕ × ℕ × ℕ

/-- All channels of every in-range pixel are 8-bit (≤ 255). -/
def Bitmap.Valid (bm : Bitmap) : Prop :=
  ∀ x, x < bm.w → ∀ y, y < bm.h →
    (bm.px x y).1 ≤ 255 ∧ (bm.px x y).2.1 ≤ 255 ∧ (bm.px x y).2.2 ≤ 255

instance (bm : Bitmap) : Decidable bm.Valid := by
  unfold Bitmap.Valid; infer_instance

/-- Modelled from the spec: PIL's `ImageOps.grayscale` (an external library
call, not code under src/) is documented as the ITU-R 601-2 luma transform
`L = R * 299/1000 + G * 587/1000 + B * 114/1000`.  Both call sites of the
source (main.py:484 and main.py:661) invoke this same function. -/
def luminance (p : ℕ × ℕ × ℕ) : ℕ :=
  (299 * p.1 + 587 * p.2.1 + 114 * p.2.2) / 1000

/-- The grayscale value the histogram generator sees for one pixel
(`ImageOps.grayscale(image)` at main.py:484). -/
def histGrayAt (bm : Bitmap) (x y : ℕ) : ℕ :=
  luminance (bm.px x y)

/-- The grayscale value the render path sees for one pixel
(`ImageOps.grayscale(resized)` at main.py:661). -/
def renderGrayAt (bm : Bitmap) (x y : ℕ) : ℕ :=
  luminance (bm.px x y)

/-- Modelled from the spec: the resampling kernel of `PIL.Image.resize`
(external library; the source's call sites use LANCZOS at main.py:607 and the
default filter at main.py:659).  Spec §4.4 leaves the kernel open and admits
nearest-neighbour; we model nearest-neighbour.  Every claim proved below about
resized images is kernel-independent (dimensions, or constant images). -/
def resizeNearest (bm : Bitmap) (w h : ℕ) : Bitmap :=
  ⟨w, h, fun x y => bm.px (x * bm.w / w) (y * bm.h / h)⟩

/-! ## Adaptive downsampler (`optimize_image_for_ascii`, main.py:584-616) -/

/-- The target dimensions computed by `optimize_image_for_ascii`
(main.py:589-603): `optimal_w = MAX_ASCII_WIDTH * OPTIMAL_PIXEL_MULTIPLIER =
800`, `optimal_h = int(800 * H/W)`; if that exceeds `MAX_PIXEL_HEIGHT = 1200`,
cap the height and recompute `optimal_w = int(1200 / (H/W)) = int(1200*W/H)`.
Python float `int(...)` of these non-negative ratios is ℕ division. -/
def optimalDims (W H : ℕ) : ℕ × ℕ :=
  let oh := 800 * H / W
  if 1200 < oh then (1200 * W / H, 1200) else (800, oh)

/-- The downsampler `optimize_image_for_ascii` (main.py:584-616): resample down to the optimal
dimensions only when the input exceeds them, else return the input as-is. -/
def optimize_image_for_ascii (bm : Bitmap) : Bitmap :=
  let d := optimalDims bm.w bm.h
  if d.1 < bm.w ∨ d.2 < bm.h then resizeNearest bm d.1 d.2 else bm

/-! ## Character quantizer (main.py:668-676) -/

/-- The glyph index of `image_to_ascii` (main.py:668-676):
`int(pixel/255 * (len(chars)-1))` when `invert_colors` is set, else
`int((255-pixel)/255 * (len(chars)-1))`.  `int` truncates; the operands are
non-negative for 8-bit pixels, so it is the floor. -/
def charIndex (invert : Bool) (rampLen p : ℕ) : ℤ :=
  if invert then ⌊(p : ℚ) / 255 * ((rampLen : ℚ) - 1)⌋
  else ⌊(255 - (p : ℚ)) / 255 * ((rampLen : ℚ) - 1)⌋

/-- The quantizer index as §4.6 of the spec words it (`round` instead of the
code's truncation); kept separate for comparison with `charIndex`. -/
def specCharIndex (invert : Bool) (rampLen p : ℕ) : ℤ :=
  if invert then round ((p : ℚ) / 255 * ((rampLen : ℚ) - 1))
  else round ((255 - (p : ℚ)) / 255 * ((rampLen : ℚ) - 1))

/-- The ramp the spec calls the "10-glyph classic ramp":
`ascii_sets["8-Level Minimalist (Classic)"]` at main.py:87. -/
def classicRamp : List Char := " .:-=+*#%@".toList

/-! ## Tone adjustment (`apply_adjustments`, main.py:952-994) -/

/-- The tone settings read by `apply_adjustments`: integer black/white levels
and brightness/contrast, float (here: rational) gamma. -/
structure ToneSettings where
  black_level : ℤ
  white_level : ℤ
  gamma : ℚ
  brightness : ℤ
  contrast : ℤ
deriving DecidableEq

/-- The identity defaults (main.py:103-107). -/
def defaultTone : ToneSettings := ⟨0, 255, 1, 0, 0⟩

/-- Clamp to the unit interval: `np.clip(x, 0, 1)`. -/
noncomputable def clamp01 (x : ℝ) : ℝ := min (max x 0) 1

/-- The guard of the levels branch at main.py:965:
`black_level != 0 or white_level != 255`.  Note this is NOT
`white_level != black_level`: the `v/255` fallback is taken only when both
levels sit at their defaults. -/
def levelsGuard (s : ToneSettings) : Prop :=
  s.black_level ≠ 0 ∨ s.white_level ≠ 255

instance (s : ToneSettings) : Decidable (levelsGuard s) := by
  unfold levelsGuard; infer_instance

/-- Levels step (main.py:964-970): normalize by the black/white window, or by
255 when both levels are at defaults. -/
noncomputable def levelsStep (s : ToneSettings) (v : ℝ) : ℝ :=
  if levelsGuard s then
    clamp01 ((v - (s.black_level : ℝ)) / ((s.white_level : ℝ) - (s.black_level : ℝ)))
  else v / 255

/-- Gamma step (main.py:972-974): `np.power(n, 1/gamma)` when `gamma != 1.0`. -/
noncomputable def gammaStep (s : ToneSettings) (n : ℝ) : ℝ :=
  if s.gamma ≠ 1 then Real.rpow n ((1 : ℝ) / (s.gamma : ℝ)) else n

/-- Brightness step (main.py:976-979): add `brightness/200` when nonzero. -/
noncomputable def brightnessStep (s : ToneSettings) (n : ℝ) : ℝ :=
  if s.brightness ≠ 0 then n + (s.brightness : ℝ) / 200 else n

/-- Contrast step (main.py:981-984): `(n - 0.5) * (contrast+100)/100 + 0.5`
when nonzero. -/
noncomputable def contrastStep (s : ToneSettings) (n : ℝ) : ℝ :=
  if s.contrast ≠ 0 then (n - 1/2) * (((s.contrast : ℝ) + 100) / 100) + 1/2 else n

/-- Output quantization (main.py:987): `np.clip(n*255, 0, 255).astype(np.uint8)`.
The uint8 cast truncates toward zero; the clipped value is non-negative, so
this is the floor — not a rounding. -/
noncomputable def quantize8 (n : ℝ) : ℤ := ⌊min (max (n * 255) 0) 255⌋

/-- One channel through `apply_adjustments` (main.py:963-987), written as the
source writes it: levels, then gamma, then brightness, then contrast, then the
uint8 conversion. -/
noncomputable def toneChannel (s : ToneSettings) (v : ℝ) : ℤ :=
  quantize8 (contrastStep s (brightnessStep s (gammaStep s (levelsStep s v))))

/-- The per-channel transform as §4.2 of the spec words it: normalization
guarded by `white_level != black_level` (with the `v/255` degenerate-range
fallback) and a rounded output; kept separate for comparison with
`toneChannel`. -/
noncomputable def specToneChannel (s : ToneSettings) (v : ℝ) : ℤ :=
  let n1 := if s.white_level ≠ s.black_level then
      clamp01 ((v - (s.black_level : ℝ)) / ((s.white_level : ℝ) - (s.black_level : ℝ)))
    else v / 255
  let n4 := contrastStep s (brightnessStep s (gammaStep s n1))
  round (min (max (n4 * 255) 0) 255)

/-- The stage `apply_adjustments` (main.py:952-994): the identity fast path at
main.py:957-960 compares every setting against its default and returns the
input image itself; otherwise every channel of every pixel goes through
`toneChannel`. -/
noncomputable def apply_adjustments (s : ToneSettings) (bm : Bitmap) : Bitmap :=
  if s.black_level = 0 ∧ s.white_level = 255 ∧ s.gamma = 1 ∧
      s.brightness = 0 ∧ s.contrast = 0 then bm
  else
    ⟨bm.w, bm.h, fun x y =>
      ((toneChannel s ((bm.px x y).1 : ℝ)).toNat,
       (toneChannel s ((bm.px x y).2.1 : ℝ)).toNat,
       (toneChannel s ((bm.px x y).2.2 : ℝ)).toNat)⟩

/-! ## Render path (`image_to_ascii`, main.py:651-680) -/

/-- The output height computed at main.py:658:
`int(width * (H/W) * 0.55 * (aspect_ratio/100))`.  `int` truncates the
non-negative float, i.e. floor; there is no clamping of the result. -/
def renderHeight (width W H aspectPct : ℕ) : ℤ :=
  ⌊(width : ℚ) * ((H : ℚ) / (W : ℚ)) * (55 / 100) * ((aspectPct : ℚ) / 100)⌋

/-- The line count as §4.4/§8 of the spec word it: `round`, clamped to ≥ 1;
kept separate for comparison with `renderHeight`. -/
def specLineCount (width W H aspectPct : ℕ) : ℤ :=
  max 1 (round ((width : ℚ) * ((H : ℚ) / (W : ℚ)) * (55 / 100) * ((aspectPct : ℚ) / 100)))

/-- The render function `image_to_ascii` (main.py:651-680): adjust, resize to
`(width, height)`, grayscale, and quantize each pixel to a ramp glyph.  The
in-bounds list lookup `self.ascii_chars[char_index]` is modelled with `getD`
(the index is proved in range below).  When a computed dimension is 0 the
`resize` call at main.py:658 raises `ValueError` inside PIL ("height and
width must be > 0"), which `convert_to_ascii` catches (main.py:642-644): the
program reports a conversion error and produces no render.  That error path
is `none`. -/
noncomputable def image_to_ascii (ts : ToneSettings) (ramp : List Char)
    (invert : Bool) (width aspectPct : ℕ) (bm : Bitmap) :
    Option (List (List Char)) :=
  let adjusted := apply_adjustments ts bm
  let height := (renderHeight width adjusted.w adjusted.h aspectPct).toNat
  if width = 0 ∨ height = 0 then none
  else
    let resized := resizeNearest adjusted width height
    some ((List.range height).map fun y =>
      (List.range width).map fun x =>
        ramp.getD (charIndex invert ramp.length (renderGrayAt resized x y)).toNat ' ')

/-! ## Histogram generator (`update_histogram`, main.py:482-485) -/

/-- Row-major list of the grayscale values of all in-range pixels
(`np.array(ImageOps.grayscale(image))` at main.py:484-485). -/
def grayValues (bm : Bitmap) : List ℕ :=
  (List.range bm.h).flatMap fun y => (List.range bm.w).map fun x => histGrayAt bm x y

/-- Membership of a value in bin `i` of `np.histogram(·, bins=64,
range=(0,256))`: uniform edges `0,4,…,256`, bins left-closed, the final bin
also right-closed (numpy's documented semantics; external library call at
main.py:485). -/
def binPred (i v : ℕ) : Bool :=
  decide (4 * i ≤ v ∧ (v < 4 * i + 4 ∨ (i = 63 ∧ v ≤ 256)))

/-- The 64 bin counts of `update_histogram` (main.py:485). -/
def update_histogram (bm : Bitmap) : List ℕ :=
  (List.range 64).map fun i => (grayValues bm).countP (binPred i)

/-! ## Sanity examples (concrete evaluations of the embedding) -/

example : charIndex true 10 128 = 4 := by norm_num [charIndex]
example : charIndex false 10 128 = 4 := by norm_num [charIndex]
example : specCharIndex true 10 128 = 5 := by norm_num [specCharIndex, round_eq]
example : luminance (128, 128, 128) = 128 := by decide
example : renderHeight 4 4 4 100 = 2 := by norm_num [renderHeight]
example : renderHeight 20 3 1 100 = 3 := by norm_num [renderHeight]
example : specLineCount 20 3 1 100 = 4 := by norm_num [specLineCount, round_eq]
example : renderHeight 20 800 1 30 = 0 := by norm_num [renderHeight]
example : specLineCount 20 800 1 30 = 1 := by norm_num [specLineCount, round_eq]
example : optimalDims 1600 100 = (800, 50) := by decide
example : optimalDims 100 2000 = (60, 1200) := by decide

/-! ## Helper lemmas -/

/-- Both branches of `apply_adjustments` keep the bitmap width. -/
lemma apply_adjustments_w (s : ToneSettings) (bm : Bitmap) :
    (apply_adjustments s bm).w = bm.w := by
  unfold apply_adjustments; split <;> rfl

/-- Both branches of `apply_adjustments` keep the bitmap height. -/
lemma apply_adjustments_h (s : ToneSettings) (bm : Bitmap) :
    (apply_adjustments s bm).h = bm.h := by
  unfold apply_adjustments; split <;> rfl

/-- The identity fast path of `apply_adjustments` (main.py:957-960). -/
lemma apply_adjustments_default (bm : Bitmap) :
    apply_adjustments defaultTone bm = bm := by
  simp [apply_adjustments, defaultTone]

/-- Rendering errors out (PIL `ValueError` at main.py:658) exactly when a
target dimension is 0. -/
lemma image_to_ascii_none_iff (ts : ToneSettings) (ramp : List Char)
    (invert : Bool) (width aspectPct : ℕ) (bm : Bitmap) :
    image_to_ascii ts ramp invert width aspectPct bm = none ↔
      width = 0 ∨ (renderHeight width bm.w bm.h aspectPct).toNat = 0 := by
  unfold image_to_ascii
  simp only [apply_adjustments_w, apply_adjustments_h]
  split <;> simp_all

/-- The successful render, with both target dimensions positive. -/
lemma image_to_ascii_some (ts : ToneSettings) (ramp : List Char)
    (invert : Bool) (width aspectPct : ℕ) (bm : Bitmap) (hw : width ≠ 0)
    (hh : (renderHeight width bm.w bm.h aspectPct).toNat ≠ 0) :
    image_to_ascii ts ramp invert width aspectPct bm =
      some ((List.range (renderHeight width bm.w bm.h aspectPct).toNat).map fun y =>
        (List.range width).map fun x =>
          ramp.getD (charIndex invert ramp.length
            (renderGrayAt (resizeNearest (apply_adjustments ts bm) width
              (renderHeight width bm.w bm.h aspectPct).toNat) x y)).toNat ' ') := by
  unfold image_to_ascii
  simp only [apply_adjustments_w, apply_adjustments_h]
  rw [if_neg (by push_neg; exact ⟨hw, hh⟩)]

/-- Rendering a constant bitmap with default tone settings: every
glyph is the one the quantizer picks for the constant's luminance. -/
lemma image_to_ascii_const (ramp : List Char) (invert : Bool)
    (width aspectPct w h : ℕ) (c : ℕ × ℕ × ℕ) (hw : width ≠ 0)
    (hh : (renderHeight width w h aspectPct).toNat ≠ 0) :
    image_to_ascii defaultTone ramp invert width aspectPct ⟨w, h, fun _ _ => c⟩ =
      some (List.replicate (renderHeight width w h aspectPct).toNat
        (List.replicate width
          (ramp.getD (charIndex invert ramp.length (luminance c)).toNat ' '))) := by
  rw [image_to_ascii_some defaultTone ramp invert width aspectPct _ hw hh]
  rw [apply_adjustments_default]
  simp [resizeNearest, renderGrayAt, List.map_const']

/-! ## C1 — degenerate levels range -/

/-- C1: the claim states that whenever `white_level == black_level` the
tone-adjustment stage avoids division by zero by falling back to `n = v/255`.
On the code this FAILS: the branch guard at main.py:965 is
`black_level != 0 or white_level != 255`, which is always true when the two
levels coincide (they cannot both sit at their distinct defaults 0 and 255),
so the stage always enters the levels branch and divides by
`white_level - black_level = 0`. -/
theorem C1_degenerate_levels_divide_by_zero (s : ToneSettings)
    (hdeg : s.white_level = s.black_level) :
    levelsGuard s ∧ s.white_level - s.black_level = 0 := by
  constructor
  · by_cases hb : s.black_level = 0
    · exact Or.inr (by rw [hdeg, hb]; decide)
    · exact Or.inl hb
  · omega

/-- Witness for C1 at the concrete failing input
`black_level = white_level = 100`. -/
theorem C1_witness :
    (⟨100, 100, 1, 0, 0⟩ : ToneSettings).white_level =
      (⟨100, 100, 1, 0, 0⟩ : ToneSettings).black_level ∧
    (levelsGuard ⟨100, 100, 1, 0, 0⟩ ∧
      (⟨100, 100, 1, 0, 0⟩ : ToneSettings).white_level -
        (⟨100, 100, 1, 0, 0⟩ : ToneSettings).black_level = 0) :=
  ⟨rfl, C1_degenerate_levels_divide_by_zero ⟨100, 100, 1, 0, 0⟩ rfl⟩

/-! ## C3 — tone pipeline order and output quantization -/

/-- C3 (amended): `apply_adjustments` applies exactly levels, then gamma, then
brightness, then contrast, in that fixed order, and produces each output
channel as `⌊clamp(n × 255, 0, 255)⌋` — truncation (the `astype(np.uint8)`
cast), not `round` as the claim stated. -/
theorem C3_tone_order_and_truncation (s : ToneSettings) (v : ℝ) :
    toneChannel s v =
      quantize8 (contrastStep s (brightnessStep s (gammaStep s (levelsStep s v)))) ∧
    quantize8 (contrastStep s (brightnessStep s (gammaStep s (levelsStep s v)))) =
      ⌊min (max (contrastStep s (brightnessStep s (gammaStep s (levelsStep s v))) * 255) 0) 255⌋ :=
  ⟨rfl, rfl⟩

/-- C3 counterexample: with `black_level=100`, `white_level=200` and all other
settings identity, a channel value of 150 normalizes to exactly 0.5, so
`n × 255 = 127.5`; the code truncates to 127 while the spec's
`round(clamp(n × 255, 0, 255))` gives 128. -/
theorem C3_counterexample_trunc_vs_round :
    toneChannel ⟨100, 200, 1, 0, 0⟩ 150 = 127 ∧
    specToneChannel ⟨100, 200, 1, 0, 0⟩ 150 = 128 := by
  constructor
  · unfold toneChannel quantize8 contrastStep brightnessStep gammaStep levelsStep
    norm_num [levelsGuard, clamp01]
  · unfold specToneChannel contrastStep brightnessStep gammaStep
    norm_num [clamp01, round_eq]

/-! ## C6 — identity tone fast path -/

/-- C6: applying the tone-adjustment stage with the default ToneSettings
`{0, 255, 1.0, 0, 0}` returns the input bitmap itself (the fast path at
main.py:957-960; the value-level content of "no new allocation"). -/
theorem C6_identity_tone (bm : Bitmap) :
    apply_adjustments defaultTone bm = bm := by
  simp [apply_adjustments, defaultTone]

/-! ## C10 — shared luminance formula -/

/-- C10: the histogram path (main.py:484) and the render path (main.py:661)
both obtain grayscale values from the same `ImageOps.grayscale` conversion,
modelled here by the single `luminance` function: for every pixel both stages
see the identical ITU-R 601 value `(299·R + 587·G + 114·B) / 1000`. -/
theorem C10_shared_luminance (bm : Bitmap) (x y : ℕ) :
    histGrayAt bm x y = renderGrayAt bm x y ∧
    renderGrayAt bm x y =
      (299 * (bm.px x y).1 + 587 * (bm.px x y).2.1 + 114 * (bm.px x y).2.2) / 1000 :=
  ⟨rfl, rfl⟩

/-! ## C2 — quantizer formula and the mid-gray example -/

/-- C2 counterexample: the quantizer truncates (`int(...)` at main.py:672),
it does not round.  For luminance 128 with the 10-glyph classic ramp and
`invert=true` the code computes `int(128/255 × 9) = 4` (glyph `'='`), not the
claimed `round(128/255 × 9) = 5` (glyph `'+'`); a uniform 128 bitmap therefore
does not render as `'+'`. -/
theorem C2_counterexample_trunc_vs_round :
    charIndex true 10 128 = 4 ∧ specCharIndex true 10 128 = 5 ∧
    image_to_ascii defaultTone classicRamp true 4 100 ⟨4, 4, fun _ _ => (128, 128, 128)⟩ ≠
      some (List.replicate 2 (List.replicate 4 '+')) := by
  refine ⟨by norm_num [charIndex], by norm_num [specCharIndex, round_eq], ?_⟩
  have h1 : renderHeight 4 4 4 100 = 2 := by norm_num [renderHeight]
  have h2 : charIndex true classicRamp.length (luminance (128, 128, 128)) = 4 := by
    norm_num [charIndex, classicRamp, luminance]
  rw [image_to_ascii_const _ _ _ _ _ _ _ (by decide) (by rw [h1]; decide), h1, h2]
  decide

/-- C2 (amended): for every luminance `p` and ramp length `N` the quantizer
chooses `⌊(255 − p)/255 × (N−1)⌋` when invert is false and
`⌊p/255 × (N−1)⌋` when invert is true (truncation, not rounding); in
particular a uniform bitmap of value 128 with the 10-glyph classic ramp and
`invert=true` renders entirely as the glyph at index 4, `'='`. -/
theorem C2_quantizer_truncates (p N : ℕ) :
    charIndex true N p = ⌊(p : ℚ) / 255 * ((N : ℚ) - 1)⌋ ∧
    charIndex false N p = ⌊(255 - (p : ℚ)) / 255 * ((N : ℚ) - 1)⌋ ∧
    image_to_ascii defaultTone classicRamp true 4 100 ⟨4, 4, fun _ _ => (128, 128, 128)⟩ =
      some (List.replicate 2 (List.replicate 4 '=')) := by
  refine ⟨rfl, rfl, ?_⟩
  have h1 : renderHeight 4 4 4 100 = 2 := by norm_num [renderHeight]
  have h2 : charIndex true classicRamp.length (luminance (128, 128, 128)) = 4 := by
    norm_num [charIndex, classicRamp, luminance]
  rw [image_to_ascii_const _ _ _ _ _ _ _ (by decide) (by rw [h1]; decide), h1, h2]
  decide

/-! ## C4 — dimension contract -/

/-- C4 counterexample: the rendered line count is
`int(width × H/W × 0.55 × aspect/100)` (truncation, main.py:658) with no
lower clamp: a 3×1 bitmap at width 20, aspect 100 renders 3 lines where the
claim's `round` formula gives 4; and for an 800×1 bitmap at width 20,
aspect 30 the truncated count is 0, so the `resize((20, 0))` call raises
`ValueError` in PIL and the program produces no render at all, where the
claim demands a render of at least 1 line. -/
theorem C4_counterexample_trunc_and_no_clamp :
    (image_to_ascii defaultTone classicRamp false 20 100
        ⟨3, 1, fun _ _ => (128, 128, 128)⟩).map List.length = some 3 ∧
    specLineCount 20 3 1 100 = 4 ∧
    image_to_ascii defaultTone classicRamp false 20 30
        ⟨800, 1, fun _ _ => (128, 128, 128)⟩ = none ∧
    specLineCount 20 800 1 30 = 1 := by
  refine ⟨?_, by norm_num [specLineCount, round_eq], ?_,
    by norm_num [specLineCount, round_eq]⟩
  · have h1 : renderHeight 20 3 1 100 = 3 := by norm_num [renderHeight]
    rw [image_to_ascii_const _ _ _ _ _ _ _ (by decide) (by rw [h1]; decide), h1]
    decide
  · rw [image_to_ascii_none_iff]
    have h1 : renderHeight 20 800 1 30 = 0 := by norm_num [renderHeight]
    rw [h1]
    decide

/-- C4 (amended): for every tone setting, bitmap with `W > 0`, width in
[20,200] and aspect_percent in [30,200], whenever rendering succeeds the
output has exactly `width` glyphs on every line and exactly
`int(width × H/W × 0.55 × aspect_percent/100)` lines — truncation, not
`round`; and there is no ≥1 clamp: rendering fails (PIL raises `ValueError`
on the zero-height resize and the program reports a conversion error instead
of producing output) exactly when that truncated count is 0. -/
theorem C4_dimension_contract (ts : ToneSettings) (ramp : List Char)
    (invert : Bool) (width aspectPct : ℕ) (bm : Bitmap)
    (hW : 0 < bm.w) (hwid : 20 ≤ width ∧ width ≤ 200)
    (hasp : 30 ≤ aspectPct ∧ aspectPct ≤ 200) :
    (∀ out, image_to_ascii ts ramp invert width aspectPct bm = some out →
      out.length = (renderHeight width bm.w bm.h aspectPct).toNat ∧
      ∀ line ∈ out, line.length = width) ∧
    (image_to_ascii ts ramp invert width aspectPct bm = none ↔
      (renderHeight width bm.w bm.h aspectPct).toNat = 0) := by
  have hw0 : width ≠ 0 := by omega
  constructor
  · intro out hout
    by_cases hh : (renderHeight width bm.w bm.h aspectPct).toNat = 0
    · rw [(image_to_ascii_none_iff ts ramp invert width aspectPct bm).mpr
        (Or.inr hh)] at hout
      exact absurd hout (by simp)
    · rw [image_to_ascii_some ts ramp invert width aspectPct bm hw0 hh] at hout
      obtain rfl := (Option.some_inj.mp hout).symm
      constructor
      · simp
      · intro line hline
        obtain ⟨y, _, rfl⟩ := List.mem_map.mp hline
        simp
  · rw [image_to_ascii_none_iff]
    simp [hw0]

/-- Witness for C4 at a concrete input (4×4 bitmap, width 20, aspect 100:
`int(20 × 1 × 0.55 × 1) = 11` lines of 20 glyphs, and no error since the
count is nonzero). -/
theorem C4_witness :
    0 < (Bitmap.mk 4 4 fun _ _ => (128, 128, 128)).w ∧ (20 ≤ 20 ∧ 20 ≤ 200) ∧
      (30 ≤ 100 ∧ 100 ≤ 200) ∧
    ((∀ out, image_to_ascii defaultTone classicRamp false 20 100
        ⟨4, 4, fun _ _ => (128, 128, 128)⟩ = some out →
      out.length = (renderHeight 20 4 4 100).toNat ∧
      ∀ line ∈ out, line.length = 20) ∧
    (image_to_ascii defaultTone classicRamp false 20 100
        ⟨4, 4, fun _ _ => (128, 128, 128)⟩ = none ↔
      (renderHeight 20 4 4 100).toNat = 0)) :=
  ⟨by decide, by decide, by decide,
    C4_dimension_contract defaultTone classicRamp false 20 100
      ⟨4, 4, fun _ _ => (128, 128, 128)⟩ (by decide) (by decide) (by decide)⟩

/-! ## C5 — downsampler bounds -/

/-- Division bound: `a ≤ b·c` gives `a/c ≤ b`. -/
lemma nat_div_le_of_le_mul {a b c : ℕ} (hc : 0 < c) (h : a ≤ b * c) : a / c ≤ b :=
  le_trans (Nat.div_le_div_right h) (le_of_eq (Nat.mul_div_cancel _ hc))

/-- The target dimensions of `optimize_image_for_ascii` are bounded by
800×1200, and whenever the resize branch triggers they do not exceed the
input dimensions. -/
lemma optimalDims_spec (W H : ℕ) (hW : 0 < W) (hH : 0 < H) :
    (optimalDims W H).1 ≤ 800 ∧ (optimalDims W H).2 ≤ 1200 ∧
    ((optimalDims W H).1 < W ∨ (optimalDims W H).2 < H →
      (optimalDims W H).1 ≤ W ∧ (optimalDims W H).2 ≤ H) := by
  unfold optimalDims
  by_cases hcap : 1200 < 800 * H / W
  · simp only [if_pos hcap]
    have h1 : 1201 * W ≤ 800 * H :=
      (Nat.le_div_iff_mul_le hW).mp (by omega)
    refine ⟨nat_div_le_of_le_mul hH (by omega), le_refl 1200, ?_⟩
    intro htrig
    have hH1200 : 1200 < H := by
      by_contra hle
      push_neg at hle
      have hWle : W ≤ 1200 * W / H := by
        rw [Nat.le_div_iff_mul_le hH]
        calc W * H ≤ W * 1200 := Nat.mul_le_mul le_rfl hle
        _ = 1200 * W := by ring
      omega
    refine ⟨nat_div_le_of_le_mul hH ?_, by omega⟩
    calc 1200 * W ≤ H * W := Nat.mul_le_mul (by omega) le_rfl
    _ = W * H := mul_comm H W
  · simp only [if_neg hcap]
    push_neg at hcap
    refine ⟨le_refl 800, hcap, ?_⟩
    intro htrig
    have h800W : 800 < W := by
      by_contra hle
      push_neg at hle
      have hHle : H ≤ 800 * H / W := by
        rw [Nat.le_div_iff_mul_le hW]
        calc H * W ≤ H * 800 := Nat.mul_le_mul le_rfl hle
        _ = 800 * H := by ring
      omega
    refine ⟨by omega, nat_div_le_of_le_mul hW ?_⟩
    calc 800 * H ≤ W * H := Nat.mul_le_mul (by omega) le_rfl
    _ = H * W := mul_comm W H

/-- C8: for every ramp length `N ≥ 2` and luminances `p1 ≤ p2` in [0,255],
the quantizer index is non-increasing in luminance under default polarity and
non-decreasing under inverted polarity. -/
theorem C8_monotone_quantization (N p1 p2 : ℕ) (hN : 2 ≤ N)
    (h12 : p1 ≤ p2) (h2 : p2 ≤ 255) :
    charIndex false N p2 ≤ charIndex false N p1 ∧
    charIndex true N p1 ≤ charIndex true N p2 := by
  have hNq : (1 : ℚ) ≤ (N : ℚ) := by exact_mod_cast Nat.one_le_of_lt hN
  have h12q : (p1 : ℚ) ≤ (p2 : ℚ) := by exact_mod_cast h12
  constructor
  · simp only [charIndex, if_neg (Bool.false_ne_true)]
    apply Int.floor_le_floor
    have hsub : (255 : ℚ) - p2 ≤ 255 - p1 := by linarith
    have hc : (0 : ℚ) ≤ (N : ℚ) - 1 := by linarith
    exact mul_le_mul_of_nonneg_right
      (div_le_div_of_nonneg_right hsub (by norm_num)) hc
  · simp only [charIndex, if_pos rfl]
    apply Int.floor_le_floor
    have hc : (0 : ℚ) ≤ (N : ℚ) - 1 := by linarith
    exact mul_le_mul_of_nonneg_right
      (div_le_div_of_nonneg_right h12q (by norm_num)) hc

/-- Witness for C8 at `N = 10`, `p1 = 100`, `p2 = 128`. -/
theorem C8_witness :
    (2 ≤ 10 ∧ 100 ≤ 128 ∧ 128 ≤ 255) ∧
    (charIndex false 10 128 ≤ charIndex false 10 100 ∧
     charIndex true 10 100 ≤ charIndex true 10 128) :=
  ⟨by decide, C8_monotone_quantization 10 100 128 (by decide) (by decide) (by decide)⟩

/-! ## C9 — quantizer index stays in bounds -/

/-- C9: for every luminance in [0,255], every ramp of `N ≥ 2` glyphs and
either polarity, the computed glyph index lies in `[0, N-1]`, so the ramp
lookup at main.py:676 never goes out of bounds. -/
theorem C9_index_in_bounds (invert : Bool) (N p : ℕ) (hN : 2 ≤ N)
    (hp : p ≤ 255) :
    0 ≤ charIndex invert N p ∧ charIndex invert N p ≤ (N : ℤ) - 1 := by
  have hNq : (1 : ℚ) ≤ (N : ℚ) := by exact_mod_cast Nat.one_le_of_lt hN
  have hpq : (p : ℚ) ≤ 255 := by exact_mod_cast hp
  have hc : (0 : ℚ) ≤ (N : ℚ) - 1 := by linarith
  have hfl : (⌊((N : ℚ) - 1)⌋ : ℤ) = (N : ℤ) - 1 := by
    rw [show ((N : ℚ) - 1) = (((N : ℤ) - 1 : ℤ) : ℚ) by push_cast; ring,
      Int.floor_intCast]
  cases invert
  · simp only [charIndex, if_neg (Bool.false_ne_true)]
    constructor
    · apply Int.floor_nonneg.mpr
      apply mul_nonneg (div_nonneg (by linarith) (by norm_num)) hc
    · rw [← hfl]
      apply Int.floor_le_floor
      have h1 : (255 - (p : ℚ)) / 255 ≤ 1 := by
        rw [div_le_one (by norm_num)]
        have hp0 : (0 : ℚ) ≤ (p : ℚ) := by positivity
        linarith
      calc (255 - (p : ℚ)) / 255 * ((N : ℚ) - 1) ≤ 1 * ((N : ℚ) - 1) :=
            mul_le_mul_of_nonneg_right h1 hc
      _ = (N : ℚ) - 1 := one_mul _
  · simp only [charIndex, if_pos rfl]
    constructor
    · apply Int.floor_nonneg.mpr
      apply mul_nonneg (div_nonneg (by positivity) (by norm_num)) hc
    · rw [← hfl]
      apply Int.floor_le_floor
      have h1 : (p : ℚ) / 255 ≤ 1 := by
        rw [div_le_one (by norm_num)]
        exact hpq
      calc (p : ℚ) / 255 * ((N : ℚ) - 1) ≤ 1 * ((N : ℚ) - 1) :=
            mul_le_mul_of_nonneg_right h1 hc
      _ = (N : ℚ) - 1 := one_mul _

/-- Witness for C9 at `invert = true`, `N = 10`, `p = 255`. -/
theorem C9_witness :
    (2 ≤ 10 ∧ 255 ≤ 255) ∧
    (0 ≤ charIndex true 10 255 ∧ charIndex true 10 255 ≤ (10 : ℤ) - 1) :=
  ⟨by decide, C9_index_in_bounds true 10 255 (by decide) (by decide)⟩

/-! ## C7 — histogram shape and conservation -/

/-- ITU-R 601 luminance of an 8-bit pixel is itself 8-bit. -/
lemma luminance_le_255 (p : ℕ × ℕ × ℕ) (h1 : p.1 ≤ 255) (h2 : p.2.1 ≤ 255)
    (h3 : p.2.2 ≤ 255) : luminance p ≤ 255 := by
  unfold luminance
  exact nat_div_le_of_le_mul (by norm_num) (by omega)

/-- Every grayscale value of a valid bitmap is ≤ 255. -/
lemma grayValues_le_255 (bm : Bitmap) (hval : bm.Valid) :
    ∀ v ∈ grayValues bm, v ≤ 255 := by
  intro v hv
  simp only [grayValues, List.mem_flatMap, List.mem_map, List.mem_range] at hv
  obtain ⟨y, hy, x, hx, rfl⟩ := hv
  obtain ⟨h1, h2, h3⟩ := hval x hx y hy
  exact luminance_le_255 _ h1 h2 h3

/-- The number of grayscale samples of a bitmap is `W·H`. -/
lemma grayValues_length (bm : Bitmap) :
    (grayValues bm).length = bm.w * bm.h := by
  simp [grayValues, List.length_flatMap, Function.comp_def, List.map_const',
    List.sum_replicate, smul_eq_mul, Nat.mul_comm]

/-- A value ≤ 255 falls in exactly one of numpy's 64 bins, namely bin `v/4`. -/
lemma binPred_iff (v : ℕ) (hv : v ≤ 255) (i : ℕ) :
    binPred i v = true ↔ i = v / 4 := by
  simp only [binPred, decide_eq_true_eq]
  omega

/-- For a value ≤ 255, summing its bin indicator over all 64 bins gives 1. -/
lemma one_bin (v : ℕ) (hv : v ≤ 255) :
    (∑ i ∈ Finset.range 64, if binPred i v then 1 else 0) = 1 := by
  have hmem : v / 4 ∈ Finset.range 64 := by
    simp only [Finset.mem_range]
    omega
  calc (∑ i ∈ Finset.range 64, if binPred i v then 1 else 0)
      = ∑ i ∈ Finset.range 64, if i = v / 4 then 1 else 0 :=
        Finset.sum_congr rfl (fun i _ => by simp [binPred_iff v hv i])
  _ = 1 := by rw [Finset.sum_ite_eq' (Finset.range 64) (v / 4) (fun _ => 1), if_pos hmem]

/-- Bin counts over all 64 bins add up to the number of values counted. -/
lemma countP_bins_sum (l : List ℕ) (h : ∀ v ∈ l, v ≤ 255) :
    (∑ i ∈ Finset.range 64, l.countP (binPred i)) = l.length := by
  induction l with
  | nil => simp
  | cons v t ih =>
    have hv : v ≤ 255 := h v (by simp)
    have ht : ∀ x ∈ t, x ≤ 255 := fun x hx => h x (by simp [hx])
    simp only [List.countP_cons, List.length_cons]
    rw [Finset.sum_add_distrib, ih ht, one_bin v hv]

/-- Sum of a list built by mapping over `List.range` is a `Finset.range` sum. -/
lemma range_map_sum (n : ℕ) (f : ℕ → ℕ) :
    ((List.range n).map f).sum = ∑ i ∈ Finset.range n, f i := by
  induction n with
  | zero => simp
  | succ m ih =>
    rw [List.range_succ, List.map_append, List.sum_append, Finset.sum_range_succ, ih]
    simp

/-- C7: for every valid non-empty bitmap, the histogram generator produces
exactly 64 bins, their counts add up to `W·H`, and bin `i` counts exactly the
grayscale values in `[4i, 4i+4)` (numpy's closed last edge is invisible for
8-bit data). -/
theorem C7_histogram_conservation (bm : Bitmap) (hval : bm.Valid)
    (hw : 0 < bm.w) (hh : 0 < bm.h) :
    (update_histogram bm).length = 64 ∧
    (update_histogram bm).sum = bm.w * bm.h ∧
    ∀ i, i < 64 → (update_histogram bm).getD i 0 =
      (grayValues bm).countP (fun v => decide (4 * i ≤ v ∧ v < 4 * i + 4)) := by
  refine ⟨by simp [update_histogram], ?_, ?_⟩
  · unfold update_histogram
    rw [range_map_sum, countP_bins_sum _ (grayValues_le_255 bm hval),
      grayValues_length]
  · intro i hi
    unfold update_histogram
    rw [List.getD_eq_getElem?_getD]
    simp only [List.getElem?_map, List.getElem?_range hi, Option.map_some',
      Option.getD_some]
    apply List.countP_congr
    intro v hv
    have hv255 : v ≤ 255 := grayValues_le_255 bm hval v hv
    simp only [binPred, decide_eq_true_eq]
    omega

/-- Witness for C7 on a concrete 2×1 bitmap. -/
theorem C7_witness :
    ((Bitmap.mk 2 1 fun x _ => if x = 0 then (10, 20, 30) else (200, 200, 200)).Valid ∧
      0 < 2 ∧ 0 < 1) ∧
    ((update_histogram ⟨2, 1, fun x _ => if x = 0 then (10, 20, 30) else (200, 200, 200)⟩).length = 64 ∧
     (update_histogram ⟨2, 1, fun x _ => if x = 0 then (10, 20, 30) else (200, 200, 200)⟩).sum = 2 * 1 ∧
     ∀ i, i < 64 →
       (update_histogram ⟨2, 1, fun x _ => if x = 0 then (10, 20, 30) else (200, 200, 200)⟩).getD i 0 =
       (grayValues ⟨2, 1, fun x _ => if x = 0 then (10, 20, 30) else (200, 200, 200)⟩).countP
         (fun v => decide (4 * i ≤ v ∧ v < 4 * i + 4))) :=
  ⟨⟨by decide, by decide, by decide⟩,
    C7_histogram_conservation
      ⟨2, 1, fun x _ => if x = 0 then (10, 20, 30) else (200, 200, 200)⟩
      (by decide) (by decide) (by decide)⟩
